import Mathlib

/-!
Verification development for the relationship-management layer of the
neomodel fork (`neomodel/relationship_manager.py`).

The Python module is embedded shallowly:

* Python classes (used only through `issubclass` / `__bases__`) become the
  inductive `PyCls`, a single-inheritance chain.
* A node instance is a record of its element id (absent when unsaved), its
  deleted flag and its class.
* The graph session (`self.source.cypher`) is an external collaborator
  (spec §6); it is modelled by a `Sess` record holding the edge set, the
  node table (labels and uuids, used by the bulk operations) and an optional
  injected failure that every issued query raises.  The semantics of the
  Cypher fragments built by the module (`MATCH`/`MERGE`/`SET`/`DELETE` over
  one relation type) is modelled from the spec (§4.2, §4.3): `MERGE` is an
  upsert of the edge pattern, `SET rel.p = v` rewrites one property,
  `DELETE` removes the matched edges.
* Every operation returns an `OpRes`: the resulting edge set, the list of
  queries it issued (tagged read/write), and its Python return value or the
  exception it raised, so that "fails before any query is issued" and
  "performs no mutation" are directly statable.
-/

set_option linter.unusedVariables false

namespace Neomodel

/-- Persisted property values (kept abstract; strings suffice for the model). -/
abbrev Val := String

/-- A property map as supplied by the application: a value of `none` models an
explicit Python `None`. -/
abbrev Props := List (String × Option Val)

/-- A Python class with single inheritance, as interrogated by the module
through `issubclass` and `__bases__`. -/
inductive PyCls where
  | root (name : String)
  | sub (name : String) (base : PyCls)
deriving DecidableEq, BEq

/-- The `__name__` of a class (also its default node label). -/
def PyCls.clsName : PyCls → String
  | .root n => n
  | .sub n _ => n

/-- Python `issubclass(c, d)`: reflexive-transitive walk up the base chain. -/
def issubclass : PyCls → PyCls → Bool
  | c@(.root _), d => c == d
  | c@(.sub _ b), d => c == d || issubclass b d

/-- `is_direct_subclass(obj, classinfo)` from the source: `classinfo` occurs
among `obj.__bases__` (one level only). -/
def is_direct_subclass : PyCls → PyCls → Bool
  | .root _, _ => false
  | .sub _ b, d => b == d

/-- The generic edge-property base class `StructuredRel`. -/
def structuredRelCls : PyCls := .root "StructuredRel"

/-- A node instance as seen by this layer: element id (`none` when the `id`
attribute is absent, i.e. the node was never saved), deleted flag, class. -/
structure Node where
  id : Option Nat
  deleted : Bool
  cls : PyCls
deriving DecidableEq

/-- The Python exceptions raised (or propagated) by the module. -/
inductive PyErr where
  | valueError (msg : String)
  | notImplementedError (msg : String)
  | notConnected (action : String) (source : Node) (node : Node)
  | relationshipClassRedefined (relType : String) (model : PyCls)
  | indexError
  | attributeError (msg : String)
  | sessionFailure (msg : String)
deriving DecidableEq

/-- The spec's error taxonomy (§7) groups the module's `ValueError` and
`NotImplementedError` under the single category "ValidationError". -/
def isValidationError : PyErr → Bool
  | .valueError _ => true
  | .notImplementedError _ => true
  | _ => false

/-- Relationship direction (`OUTGOING` / `INCOMING` / `EITHER`). -/
inductive Direction where
  | outgoing
  | incoming
  | either
deriving DecidableEq

/-- An edge-property class: its declared properties with their defaults.
Modelled from the spec: the edge-property abstraction (`StructuredRel` and the
property system) lives outside the reviewed file; §4.3 specifies that
instantiation applies declared defaults for omitted fields. -/
structure RelModel where
  declaredProps : List (String × Option Val)
deriving DecidableEq

/-- The `definition` dict of a relationship spec: relation-type label,
direction, endpoint node class, optional edge-property class. -/
structure RelDef where
  relation_type : String
  direction : Direction
  node_class : PyCls
  model : Option RelModel
deriving DecidableEq

/-- A directed edge of the graph: endpoints by element id, its relation type
and its stored (non-null) properties. -/
structure Edge where
  fromId : Nat
  toId : Nat
  relType : String
  props : List (String × Val)
deriving DecidableEq

/-- A node row of the graph as the bulk queries see it: element id, label and
application-level `uuid` key. -/
structure DbNode where
  nid : Nat
  label : String
  uuid : String
deriving DecidableEq

/-- The external graph session (spec §6): the current edge set, the node
table, and an optional failure every issued query raises unmodified. -/
structure Sess where
  edges : List Edge
  nodes : List DbNode
  err : Option PyErr
deriving DecidableEq

/-- A `RelationshipManager`: source node instance, relation name, spec. -/
structure Mgr where
  source : Node
  name : String
  defn : RelDef
deriving DecidableEq

/-- Tag for an issued query: pure read versus mutation. -/
inductive QueryKind where
  | read
  | write
deriving DecidableEq

/-- Result of one operation: the edge set afterwards, the queries it issued in
order, and its return value or the exception it raised. -/
structure OpRes (α : Type) where
  edges : List Edge
  queries : List QueryKind
  out : Except PyErr α

/-- Python dict assignment on an association list: replace the binding of the
key in place, or append it. -/
def assocSet {α : Type} : List (String × α) → String → α → List (String × α)
  | [], k, v => [(k, v)]
  | (k₀, v₀) :: rest, k, v =>
      if k₀ = k then (k, v) :: rest else (k₀, v₀) :: assocSet rest k v

/-- Removal of a key from an association list (Cypher `SET rel.p = null`). -/
def assocRemove {α : Type} : List (String × α) → String → List (String × α)
  | [], _ => []
  | (k₀, v₀) :: rest, k =>
      if k₀ = k then assocRemove rest k else (k₀, v₀) :: assocRemove rest k

/-- Python truthiness of an optional dict argument. -/
def truthy : Option Props → Bool
  | none => false
  | some ps => !ps.isEmpty

/-- The registry binding relation-type labels to edge-property classes
(`db._NODE_CLASS_REGISTRY` restricted to the singleton label-sets this module
uses). -/
abbrev Registry := List (String × PyCls)

/-- The registry-update fragment of `RelationshipDefinition.__init__`
(lines 458–476): on a prior binding, a subclass rebinds; otherwise the
redefinition error is raised only when the new class is a direct subclass of
`StructuredRel` and the prior binding is not a descendant of it; in the
remaining case nothing happens. -/
def registerRelModel (reg : Registry) (relation_type : String) (model : PyCls) :
    Except PyErr Registry :=
  match reg.lookup relation_type with
  | some model_from_registry =>
      if issubclass model model_from_registry = false then
        if is_direct_subclass model structuredRelCls = true
            && issubclass model_from_registry model = false then
          .error (.relationshipClassRedefined relation_type model)
        else
          .ok reg
      else
        .ok (assocSet reg relation_type model)
  | none => .ok (reg ++ [(relation_type, model)])

/-- Whether an edge is matched by the pattern `_rel_helper(lhs=us, rhs=them)`
for this spec.  Modelled from the spec (§4.2): the pattern builder renders the
relation-type label and lets the direction control the arrow. -/
def edgeMatches (d : RelDef) (usId themId : Nat) (e : Edge) : Bool :=
  e.relType == d.relation_type &&
    (match d.direction with
     | .outgoing => e.fromId == usId && e.toId == themId
     | .incoming => e.fromId == themId && e.toId == usId
     | .either => (e.fromId == usId && e.toId == themId)
         || (e.fromId == themId && e.toId == usId))

/-- Whether an edge of this relation type is incident to the source in the
direction of the spec (the edges counted by "the source has zero edges of this
type"). -/
def incidentToSource (d : RelDef) (usId : Nat) (e : Edge) : Bool :=
  e.relType == d.relation_type &&
    (match d.direction with
     | .outgoing => e.fromId == usId
     | .incoming => e.toId == usId
     | .either => e.fromId == usId || e.toId == usId)

/-- The bare edge a `MERGE` of the pattern creates when nothing matches. -/
def mergedEdge (d : RelDef) (usId themId : Nat) : Edge :=
  match d.direction with
  | .outgoing => ⟨usId, themId, d.relation_type, []⟩
  | .incoming => ⟨themId, usId, d.relation_type, []⟩
  | .either => ⟨usId, themId, d.relation_type, []⟩

/-- Modelled from the spec: `_pre_action_check` (from the node abstraction,
outside the reviewed file) requires the source to be persisted (a stable
identity exists) and not deleted, and fails fast otherwise (§4.3, §6); on
success the stable identity is available as the `$self` query parameter. -/
def pre_action_check (n : Node) : Except PyErr Nat :=
  match n.id with
  | none => .error (.valueError "operation attempted on unsaved node")
  | some i =>
      if n.deleted then .error (.valueError "operation attempted on deleted node")
      else .ok i

/-- `RelationshipManager._check_node`: the argument must be an instance of the
declared endpoint class and must be saved (`hasattr(obj, 'id')`). -/
def check_node (d : RelDef) (n : Node) : Except PyErr Nat :=
  if issubclass n.cls d.node_class = false then
    .error (.valueError ("Expected node of class " ++ d.node_class.clsName))
  else
    match n.id with
    | none => .error (.valueError "operation attempted on unsaved node argument")
    | some i => .ok i

/-- Modelled from the spec: instantiating an edge-property class from supplied
properties applies the declared defaults for omitted fields (§4.3); supplied
keys override, including with an explicit null. -/
def instantiateRel (rm : RelModel) (supplied : Props) : Props :=
  rm.declaredProps.map (fun kd =>
    match supplied.lookup kd.1 with
    | some v => (kd.1, v)
    | none => kd)

/-- Modelled from the spec: `deflate` converts the instance property map to
the persisted parameter representation (§6); modelled as the map itself. -/
def deflateRel (rm : RelModel) (inst : Props) : Props := inst

/-- The parameter-building loop of `connect_helper` (lines 89–99): the fake
instance is built from `properties` when truthy (else from no arguments, which
coincides with instantiating from the empty map), deflated, and every deflated
property becomes an entry of `rp` — a `$p` placeholder when the value is
non-null, an explicit null otherwise — and an entry of `params`. -/
def buildRelParams (rm : RelModel) (properties : Option Props) :
    List (String × Option String) × Props :=
  let deflated := deflateRel rm (instantiateRel rm (properties.getD []))
  (deflated.map (fun pv =>
      (pv.1, match pv.2 with
             | some _ => some ("$" ++ pv.1)
             | none => none)),
   deflated)

/-- An edge-property instance: its property map and the two informational
back-references assigned by `_set_start_end_cls` (`none` while unset). -/
structure RelInstance where
  props : Props
  startCls : Option PyCls
  endCls : Option PyCls
deriving DecidableEq

/-- Modelled from the spec: `inflate` builds an edge-property instance from a
persisted edge (§6); the start/end back-references are not yet assigned. -/
def inflateRel (e : Edge) : RelInstance :=
  ⟨e.props.map (fun kv => (kv.1, some kv.2)), none, none⟩

/-- `RelationshipManager._set_start_end_cls` (lines 230–237). -/
def set_start_end_cls (d : RelDef) (sourceCls : PyCls) (ri : RelInstance)
    (objCls : PyCls) : RelInstance :=
  match d.direction with
  | .incoming => { ri with startCls := some objCls, endCls := some sourceCls }
  | _ => { ri with startCls := some sourceCls, endCls := some objCls }

/-- The Python class of the `node` argument `connect_helper` hands to
`_set_start_end_cls`: `bulk_connect` passes `node=None`, whose class is
`NoneType`. -/
def noneTypeCls : PyCls := .root "NoneType"

/-- Return value of `connect_helper`: `True` when no edge-property class is
bound, the materialized instance otherwise. -/
inductive ConnectRet where
  | boolTrue
  | inst (ri : RelInstance)
deriving DecidableEq

/-- The target clause of `connect_helper`'s query: `connect` matches one node
by identity; `bulk_connect` unwinds uuids against a label. -/
inductive ConnTarget where
  | single (themId : Nat) (objCls : PyCls)
  | bulk (label : String) (uuids : List String)

/-- The element ids the target clause resolves to, in row order. -/
def resolveTargets (s : Sess) (tgt : ConnTarget) : List Nat :=
  match tgt with
  | .single themId _ => [themId]
  | .bulk label uuids =>
      (uuids.map (fun u =>
        ((s.nodes.filter (fun n => n.label == label && n.uuid == u)).map
          (fun n => n.nid)))).flatten

/-- The class handed to `_set_start_end_cls` for this target. -/
def targetObjCls : ConnTarget → PyCls
  | .single _ objCls => objCls
  | .bulk _ _ => noneTypeCls

/-- Whether an edge is matched by the merge pattern with the given inline
(non-null) properties. -/
def mergePatternMatches (d : RelDef) (usId themId : Nat)
    (inline : List (String × Val)) (e : Edge) : Bool :=
  edgeMatches d usId themId e
    && inline.all (fun kv => e.props.lookup kv.1 == some kv.2)

/-- One `MERGE` row of `connect_helper`'s query: reuse a matching edge or
create one carrying the inline properties (spec §4.2: property placeholders
are set at creation time). -/
def connectMerge (d : RelDef) (usId : Nat) (inline : List (String × Val))
    (edges : List Edge) (themId : Nat) : List Edge :=
  if edges.any (mergePatternMatches d usId themId inline) then edges
  else edges ++ [{ mergedEdge d usId themId with props := inline }]

/-- `RelationshipManager.connect_helper` (lines 70–123): reject properties
without a bound edge-property class before anything else; without a model run
the merge query and return `True`; with a model build the parameters, run the
merge query with `RETURN r`, inflate the first returned edge and assign the
start/end classes.  An empty result set makes the `[0]` indexing raise. -/
def connect_helper (m : Mgr) (s : Sess) (usId : Nat) (properties : Option Props)
    (tgt : ConnTarget) : OpRes ConnectRet :=
  if m.defn.model = none ∧ truthy properties = true then
    ⟨s.edges, [], .error (.notImplementedError
      "Relationship properties without using a relationship model is no longer supported.")⟩
  else
    match m.defn.model with
    | none =>
        match s.err with
        | some e => ⟨s.edges, [.write], .error e⟩
        | none =>
            ⟨(resolveTargets s tgt).foldl (connectMerge m.defn usId []) s.edges,
             [.write], .ok .boolTrue⟩
    | some rm =>
        let inline := (buildRelParams rm properties).2.filterMap
          (fun pv => pv.2.map (fun v => (pv.1, v)))
        match s.err with
        | some e => ⟨s.edges, [.write], .error e⟩
        | none =>
            let edges2 := (resolveTargets s tgt).foldl
              (connectMerge m.defn usId inline) s.edges
            match (resolveTargets s tgt).head? with
            | none => ⟨edges2, [.write], .error .indexError⟩
            | some firstTgt =>
                match edges2.filter (mergePatternMatches m.defn usId firstTgt inline) with
                | [] => ⟨edges2, [.write], .error .indexError⟩
                | r :: _ =>
                    ⟨edges2, [.write],
                     .ok (.inst (set_start_end_cls m.defn m.source.cls
                       (inflateRel r) (targetObjCls tgt)))⟩

/-- `RelationshipManager.connect` (lines 125–140): `@check_source`, then
`_check_node`, then the merge query through `connect_helper`. -/
def connect (m : Mgr) (s : Sess) (node : Node) (properties : Option Props) :
    OpRes ConnectRet :=
  match pre_action_check m.source with
  | .error e => ⟨s.edges, [], .error e⟩
  | .ok usId =>
      match check_node m.defn node with
      | .error e => ⟨s.edges, [], .error e⟩
      | .ok themId => connect_helper m s usId properties (.single themId node.cls)

/-- `RelationshipManager.bulk_connect` (lines 156–176): `@check_source`; an
empty uuid list returns without issuing any query; otherwise the `UNWIND`
merge query through `connect_helper`. -/
def bulk_connect (m : Mgr) (s : Sess) (uuids : List String) (label : String)
    (properties : Option Props) : OpRes (Option ConnectRet) :=
  match pre_action_check m.source with
  | .error e => ⟨s.edges, [], .error e⟩
  | .ok usId =>
      if uuids = [] then ⟨s.edges, [], .ok none⟩
      else
        let r := connect_helper m s usId properties (.bulk label uuids)
        ⟨r.edges, r.queries, r.out.map some⟩

/-- `RelationshipManager.bulk_disconnect` (lines 142–154).  Note: this is the
one mutation method in the source WITHOUT the `@check_source` decorator.  An
empty uuid list is a no-op; otherwise one delete query removes every edge of
this relation type between the source and any node whose uuid is listed
(`self.source.cypher` reads the `id` attribute of the source, so an unsaved
source raises an attribute error, but a deleted one proceeds). -/
def bulk_disconnect (m : Mgr) (s : Sess) (uuids : List String) : OpRes Unit :=
  if uuids = [] then ⟨s.edges, [], .ok ()⟩
  else
    match m.source.id with
    | none => ⟨s.edges, [], .error (.attributeError "id")⟩
    | some usId =>
        match s.err with
        | some e => ⟨s.edges, [.write], .error e⟩
        | none =>
            ⟨s.edges.filter (fun e =>
               !(s.nodes.any (fun n =>
                   uuids.contains n.uuid && edgeMatches m.defn usId n.nid e))),
             [.write], .ok ()⟩

/-- `RelationshipManager.disconnect` (lines 281–292): `@check_source`, then one
delete query for the edges between source and `node` (the node id is read for
the parameter map without `_check_node`). -/
def disconnect (m : Mgr) (s : Sess) (node : Node) : OpRes Unit :=
  match pre_action_check m.source with
  | .error e => ⟨s.edges, [], .error e⟩
  | .ok usId =>
      match node.id with
      | none => ⟨s.edges, [], .error (.attributeError "id")⟩
      | some themId =>
          match s.err with
          | some e => ⟨s.edges, [.write], .error e⟩
          | none =>
              ⟨s.edges.filter (fun e => !edgeMatches m.defn usId themId e),
               [.write], .ok ()⟩

/-- Whether a node id carries the given label in the session's node table. -/
def hasLabel (ns : List DbNode) (i : Nat) (lbl : String) : Bool :=
  ns.any (fun n => n.nid == i && n.label == lbl)

/-- Whether an edge is matched by the `disconnect_all` pattern: incident to
the source with the right type, other endpoint carrying the declared endpoint
label. -/
def edgeMatchesLabeled (d : RelDef) (usId : Nat) (ns : List DbNode) (e : Edge) : Bool :=
  e.relType == d.relation_type &&
    (match d.direction with
     | .outgoing => e.fromId == usId && hasLabel ns e.toId d.node_class.clsName
     | .incoming => e.toId == usId && hasLabel ns e.fromId d.node_class.clsName
     | .either => (e.fromId == usId && hasLabel ns e.toId d.node_class.clsName)
         || (e.toId == usId && hasLabel ns e.fromId d.node_class.clsName))

/-- `RelationshipManager.disconnect_all` (lines 294–304): `@check_source`,
then one delete query for every edge of this type from the source to any node
of the declared endpoint label. -/
def disconnect_all (m : Mgr) (s : Sess) : OpRes Unit :=
  match pre_action_check m.source with
  | .error e => ⟨s.edges, [], .error e⟩
  | .ok usId =>
      match s.err with
      | some e => ⟨s.edges, [.write], .error e⟩
      | none =>
          ⟨s.edges.filter (fun e => !edgeMatchesLabeled m.defn usId s.nodes e),
           [.write], .ok ()⟩

/-- `RelationshipManager.replace` (lines 179–190): `@check_source`, then
`disconnect_all()` followed by `connect(node, properties)` as two independent
queries. -/
def replace (m : Mgr) (s : Sess) (node : Node) (properties : Option Props) :
    OpRes ConnectRet :=
  match pre_action_check m.source with
  | .error e => ⟨s.edges, [], .error e⟩
  | .ok _ =>
      let r1 := disconnect_all m s
      match r1.out with
      | .error e => ⟨r1.edges, r1.queries, .error e⟩
      | .ok _ =>
          let r2 := connect m { s with edges := r1.edges } node properties
          ⟨r2.edges, r1.queries ++ r2.queries, r2.out⟩

/-- `RelationshipManager.relationship` (lines 192–209): `@check_source`,
`_check_node`, then one read query with `LIMIT 1`; an empty result yields
`None`, otherwise the first edge is inflated and given its start/end
classes. -/
def relationship (m : Mgr) (s : Sess) (node : Node) : OpRes (Option RelInstance) :=
  match pre_action_check m.source with
  | .error e => ⟨s.edges, [], .error e⟩
  | .ok usId =>
      match check_node m.defn node with
      | .error e => ⟨s.edges, [], .error e⟩
      | .ok themId =>
          match s.err with
          | some e => ⟨s.edges, [.read], .error e⟩
          | none =>
              match s.edges.filter (edgeMatches m.defn usId themId) with
              | [] => ⟨s.edges, [.read], .ok none⟩
              | r :: _ =>
                  ⟨s.edges, [.read],
                   .ok (some (set_start_end_cls m.defn m.source.cls
                     (inflateRel r) node.cls))⟩

/-- `RelationshipManager.all_relationships` (lines 211–228): as
`relationship` but without `LIMIT 1`; an empty result yields the empty list,
otherwise every returned edge is inflated and given its start/end classes. -/
def all_relationships (m : Mgr) (s : Sess) (node : Node) : OpRes (List RelInstance) :=
  match pre_action_check m.source with
  | .error e => ⟨s.edges, [], .error e⟩
  | .ok usId =>
      match check_node m.defn node with
      | .error e => ⟨s.edges, [], .error e⟩
      | .ok themId =>
          match s.err with
          | some e => ⟨s.edges, [.read], .error e⟩
          | none =>
              match s.edges.filter (edgeMatches m.defn usId themId) with
              | [] => ⟨s.edges, [.read], .ok []⟩
              | rels =>
                  ⟨s.edges, [.read],
                   .ok (rels.map (fun r => set_start_end_cls m.defn m.source.cls
                     (inflateRel r) node.cls))⟩

/-- Modelled from the spec: the traversal proxy's indexed access (`self[0]`,
forwarded to the external query compiler, §4.4) returns the element of the
related-node sequence at the index, raising an out-of-range error past the
end; a session failure propagates. -/
def traversal_item (s : Sess) (related : List Node) (i : Nat) : Except PyErr Node :=
  match s.err with
  | some e => .error e
  | none =>
      match related.drop i with
      | [] => .error .indexError
      | x :: _ => .ok x

/-- `RelationshipManager.single` (lines 376–385): `self[0]` with only an
out-of-range error translated to `None`; any other exception propagates. -/
def single (s : Sess) (related : List Node) : Except PyErr (Option Node) :=
  match traversal_item s related 0 with
  | .ok x => .ok (some x)
  | .error .indexError => .ok none
  | .error e => .error e

/-- The clauses of the single mutation query `reconnect` builds (lines
267–277), in the order the source concatenates them: `MERGE` the new edge,
one `SET r2.p = r.p` per property key found on the old edge, then
`WITH r DELETE r`. -/
inductive RClause where
  | merge
  | setCopy (p : String)
  | delete
deriving DecidableEq

/-- The clause list of `reconnect`'s mutation query for the given key list. -/
def reconnectClauses (keys : List String) : List RClause :=
  .merge :: (keys.map RClause.setCopy ++ [.delete])

/-- Cypher `SET rel.p = v`: rewrite one property of a stored map (`none`
removes it). -/
def setPropVal (props : List (String × Val)) (p : String) (v : Option Val) :
    List (String × Val) :=
  match v with
  | some w => assocSet props p w
  | none => assocRemove props p

/-- Effect of the `MERGE` clause: reuse an edge matching the new pattern or
create the bare one. -/
def mergeStep (d : RelDef) (usId newId : Nat) (edges : List Edge) : List Edge :=
  if edges.any (edgeMatches d usId newId) then edges
  else edges ++ [mergedEdge d usId newId]

/-- Effect of one `SET r2.p = r.p` clause: every edge matched by the new
pattern gets property `p` of the old edge. -/
def setStep (d : RelDef) (usId newId : Nat) (oldProps : List (String × Val))
    (p : String) (edges : List Edge) : List Edge :=
  edges.map (fun e =>
    if edgeMatches d usId newId e then
      { e with props := setPropVal e.props p (oldProps.lookup p) }
    else e)

/-- Effect of the `WITH r DELETE r` clause: remove the edges matched by the
old pattern. -/
def deleteStep (d : RelDef) (usId oldId : Nat) (edges : List Edge) : List Edge :=
  edges.filter (fun e => !edgeMatches d usId oldId e)

/-- Interpretation of one clause of `reconnect`'s mutation query over the edge
set (modelled from the spec, §4.2/§4.3: upsert, property copy, delete). -/
def applyClause (d : RelDef) (usId oldId newId : Nat)
    (oldProps : List (String × Val)) (edges : List Edge) : RClause → List Edge
  | .merge => mergeStep d usId newId edges
  | .setCopy p => setStep d usId newId oldProps p edges
  | .delete => deleteStep d usId oldId edges

/-- `RelationshipManager.reconnect` (lines 239–279): `@check_source`, check
both nodes, return immediately when the identities coincide; otherwise one
read query fetches the existing edge (raising the not-connected error naming
source and old node when there is none), and one mutation query runs the
merge/copy/delete clause list.  The success value is the clause list of that
mutation query (`none` on the identity short-circuit, where no query is
built). -/
def reconnect (m : Mgr) (s : Sess) (old_node new_node : Node) :
    OpRes (Option (List RClause)) :=
  match pre_action_check m.source with
  | .error e => ⟨s.edges, [], .error e⟩
  | .ok usId =>
      match check_node m.defn old_node with
      | .error e => ⟨s.edges, [], .error e⟩
      | .ok oldId =>
          match check_node m.defn new_node with
          | .error e => ⟨s.edges, [], .error e⟩
          | .ok newId =>
              if oldId = newId then ⟨s.edges, [], .ok none⟩
              else
                match s.err with
                | some e => ⟨s.edges, [.read], .error e⟩
                | none =>
                    match s.edges.filter (edgeMatches m.defn usId oldId) with
                    | [] => ⟨s.edges, [.read],
                        .error (.notConnected "reconnect" m.source old_node)⟩
                    | r :: _ =>
                        let cs := reconnectClauses (r.props.map Prod.fst)
                        ⟨cs.foldl (applyClause m.defn usId oldId newId r.props) s.edges,
                         [.read, .write], .ok (some cs)⟩

/-! Concrete fixtures used by the witnesses. -/

/-- A node class for the examples. -/
def exPersonCls : PyCls := .root "Person"

/-- A persisted, live source node. -/
def exSource : Node := ⟨some 1, false, exPersonCls⟩

/-- A spec with no bound edge-property class. -/
def exDefn : RelDef := ⟨"KNOWS", .outgoing, exPersonCls, none⟩

/-- A manager on the live source. -/
def exMgr : Mgr := ⟨exSource, "knows", exDefn⟩

/-- A deleted source node that still carries its element id. -/
def exDeletedSource : Node := ⟨some 1, true, exPersonCls⟩

/-- A manager whose source is deleted. -/
def exDeletedMgr : Mgr := ⟨exDeletedSource, "knows", exDefn⟩

/-- A persisted target node. -/
def exNodeB : Node := ⟨some 2, false, exPersonCls⟩

/-- Another persisted target node. -/
def exNodeC : Node := ⟨some 3, false, exPersonCls⟩

/-- An existing `KNOWS` edge from the source to `exNodeB` carrying two
properties. -/
def exEdgeAB : Edge := ⟨1, 2, "KNOWS", [("since", "2020"), ("weight", "5")]⟩

/-- A session holding that one edge. -/
def exSess : Sess := ⟨[exEdgeAB], [⟨2, "Person", "u2"⟩], none⟩

/-- A session with no edges. -/
def exSessNoEdges : Sess := ⟨[], [⟨2, "Person", "u2"⟩], none⟩

/-! ## C6 — reconnect with identical identities is a no-op -/

/-- C6: for every `reconnect(oldNode, newNode)` where the two nodes share the
same identity, the operation issues no query and leaves the edge set
unchanged. -/
theorem C6_reconnect_same_identity_noop (m : Mgr) (s : Sess)
    (oldN newN : Node) (usId oldId newId : Nat)
    (hsrc : pre_action_check m.source = .ok usId)
    (hold : check_node m.defn oldN = .ok oldId)
    (hnew : check_node m.defn newN = .ok newId)
    (heq : oldId = newId) :
    reconnect m s oldN newN = ⟨s.edges, [], .ok none⟩ := by
  simp [reconnect, hsrc, hold, hnew, heq]

/-- Witness for C6 at a concrete manager, session and node. -/
theorem C6_reconnect_same_identity_noop_witness :
    pre_action_check exSource = .ok 1 ∧ check_node exDefn exNodeB = .ok 2 ∧
    reconnect exMgr exSess exNodeB exNodeB = ⟨exSess.edges, [], .ok none⟩ :=
  ⟨rfl, rfl,
   C6_reconnect_same_identity_noop exMgr exSess exNodeB exNodeB 1 2 2 rfl rfl rfl rfl⟩

/-! ## C5 — reconnect with no existing edge -/

/-- C5: for every `reconnect(oldNode, newNode)` where no edge of this relation
type exists between the source and `oldNode`, the operation fails with the
not-connected error naming the source and `oldNode`, after the single read
query and before any mutation, leaving the edge set unchanged. -/
theorem C5_reconnect_not_connected (m : Mgr) (s : Sess)
    (oldN newN : Node) (usId oldId newId : Nat)
    (hsrc : pre_action_check m.source = .ok usId)
    (hold : check_node m.defn oldN = .ok oldId)
    (hnew : check_node m.defn newN = .ok newId)
    (hne : oldId ≠ newId)
    (herr : s.err = none)
    (hnone : s.edges.filter (edgeMatches m.defn usId oldId) = []) :
    reconnect m s oldN newN =
      ⟨s.edges, [.read], .error (.notConnected "reconnect" m.source oldN)⟩ := by
  simp [reconnect, hsrc, hold, hnew, hne, herr, hnone]

/-- Witness for C5 on a session with no edges. -/
theorem C5_reconnect_not_connected_witness :
    exSessNoEdges.edges.filter (edgeMatches exMgr.defn 1 2) = [] ∧
    reconnect exMgr exSessNoEdges exNodeB exNodeC =
      ⟨exSessNoEdges.edges, [.read],
       .error (.notConnected "reconnect" exMgr.source exNodeB)⟩ :=
  ⟨rfl,
   C5_reconnect_not_connected exMgr exSessNoEdges exNodeB exNodeC 1 2 3
     rfl rfl rfl (by decide) rfl rfl⟩

/-! ## C7 — bulk operations on the empty key list -/

/-- C7: `bulk_connect` and `bulk_disconnect` called with an empty node-key
list each return without issuing any query and leave the edge set
unchanged. -/
theorem C7_bulk_empty_noop (m : Mgr) (s : Sess) (label : String)
    (properties : Option Props) (usId : Nat)
    (hsrc : pre_action_check m.source = .ok usId) :
    bulk_connect m s [] label properties = ⟨s.edges, [], .ok none⟩ ∧
    bulk_disconnect m s [] = ⟨s.edges, [], .ok ()⟩ := by
  constructor
  · simp [bulk_connect, hsrc]
  · simp [bulk_disconnect]

/-- Witness for C7 at a concrete manager and session. -/
theorem C7_bulk_empty_noop_witness :
    pre_action_check exSource = .ok 1 ∧
    bulk_connect exMgr exSess [] "Person" none = ⟨exSess.edges, [], .ok none⟩ ∧
    bulk_disconnect exMgr exSess [] = ⟨exSess.edges, [], .ok ()⟩ :=
  ⟨rfl, (C7_bulk_empty_noop exMgr exSess "Person" none 1 rfl).1,
   (C7_bulk_empty_noop exMgr exSess "Person" none 1 rfl).2⟩

/-! ## C3 — properties without a bound edge-property class -/

/-- C3 counterexample: `bulk_connect` on a spec with no bound edge-property
class and a non-empty properties argument does NOT fail when the node-key
list is empty — it returns successfully without a query, refuting the claim
that every such call fails. -/
theorem C3_counterexample :
    exMgr.defn.model = none ∧
    truthy (some [("since", some "2020")]) = true ∧
    bulk_connect exMgr exSess [] "Person" (some [("since", some "2020")]) =
      ⟨exSess.edges, [], .ok none⟩ :=
  ⟨rfl, rfl, rfl⟩

/-- C3 as amended: with no bound edge-property class and a truthy properties
argument, `connect` always fails — and `bulk_connect` fails whenever its
node-key list is non-empty — with the not-implemented error (the spec's
ValidationError category) before any query is issued and with the edge set
unchanged. -/
theorem C3_amended_props_require_model (m : Mgr) (s : Sess) (node : Node)
    (properties : Option Props) (usId themId : Nat) (label : String)
    (uuids : List String)
    (hmodel : m.defn.model = none)
    (hprops : truthy properties = true)
    (hsrc : pre_action_check m.source = .ok usId)
    (hnode : check_node m.defn node = .ok themId)
    (huuids : uuids ≠ []) :
    connect m s node properties =
      ⟨s.edges, [], .error (.notImplementedError
        "Relationship properties without using a relationship model is no longer supported.")⟩ ∧
    bulk_connect m s uuids label properties =
      ⟨s.edges, [], .error (.notImplementedError
        "Relationship properties without using a relationship model is no longer supported.")⟩ ∧
    isValidationError (.notImplementedError
      "Relationship properties without using a relationship model is no longer supported.") = true := by
  refine ⟨?_, ?_, rfl⟩
  · simp [connect, connect_helper, hmodel, hprops, hsrc, hnode]
  · simp [bulk_connect, connect_helper, hmodel, hprops, hsrc, huuids, Except.map]

/-- Witness for the amended C3 at a concrete call. -/
theorem C3_amended_props_require_model_witness :
    exMgr.defn.model = none ∧ truthy (some [("since", some "2020")]) = true ∧
    connect exMgr exSess exNodeB (some [("since", some "2020")]) =
      ⟨exSess.edges, [], .error (.notImplementedError
        "Relationship properties without using a relationship model is no longer supported.")⟩ :=
  ⟨rfl, rfl,
   (C3_amended_props_require_model exMgr exSess exNodeB
     (some [("since", some "2020")]) 1 2 "Person" ["u2"]
     rfl rfl rfl rfl (by decide)).1⟩

/-! ## C4 — source precondition on the mutation operations -/

/-- C4 counterexample: `bulk_disconnect` carries no source check.  On a
manager whose source is deleted (precondition violated), a call with a
non-empty key list issues its delete query and succeeds — it even removes an
edge — instead of failing fast. -/
theorem C4_counterexample :
    exDeletedMgr.source.deleted = true ∧
    pre_action_check exDeletedMgr.source =
      .error (.valueError "operation attempted on deleted node") ∧
    bulk_disconnect exDeletedMgr exSess ["u2"] = ⟨[], [.write], .ok ()⟩ :=
  ⟨rfl, rfl, rfl⟩

/-- C4 as amended: `connect`, `bulk_connect`, `disconnect`, `disconnect_all`,
`replace` and `reconnect` all fail fast, before any query and with the edge
set unchanged, when the source is unsaved or deleted; `bulk_disconnect` alone
performs no such check and issues its delete query regardless. -/
theorem C4_amended_check_source (m : Mgr) (s : Sess) (e : PyErr)
    (node oldN newN : Node) (uuids : List String) (label : String)
    (properties : Option Props)
    (hsrc : pre_action_check m.source = .error e) :
    connect m s node properties = ⟨s.edges, [], .error e⟩ ∧
    bulk_connect m s uuids label properties = ⟨s.edges, [], .error e⟩ ∧
    disconnect m s node = ⟨s.edges, [], .error e⟩ ∧
    disconnect_all m s = ⟨s.edges, [], .error e⟩ ∧
    replace m s node properties = ⟨s.edges, [], .error e⟩ ∧
    reconnect m s oldN newN = ⟨s.edges, [], .error e⟩ ∧
    (∀ usId, m.source.id = some usId → uuids ≠ [] → s.err = none →
      (bulk_disconnect m s uuids).queries = [.write] ∧
      (bulk_disconnect m s uuids).out = .ok ()) := by
  refine ⟨?_, ?_, ?_, ?_, ?_, ?_, ?_⟩
  · simp [connect, hsrc]
  · simp [bulk_connect, hsrc]
  · simp [disconnect, hsrc]
  · simp [disconnect_all, hsrc]
  · simp [replace, hsrc]
  · simp [reconnect, hsrc]
  · intro usId hid huu herr
    simp [bulk_disconnect, huu, hid, herr]

/-- Witness for the amended C4 on the deleted-source manager. -/
theorem C4_amended_check_source_witness :
    pre_action_check exDeletedMgr.source =
      .error (.valueError "operation attempted on deleted node") ∧
    disconnect_all exDeletedMgr exSess =
      ⟨exSess.edges, [],
       .error (.valueError "operation attempted on deleted node")⟩ ∧
    (bulk_disconnect exDeletedMgr exSess ["u2"]).queries = [.write] :=
  ⟨rfl,
   (C4_amended_check_source exDeletedMgr exSess
     (.valueError "operation attempted on deleted node")
     exNodeB exNodeB exNodeC ["u2"] "Person" none rfl).2.2.2.1,
   ((C4_amended_check_source exDeletedMgr exSess
     (.valueError "operation attempted on deleted node")
     exNodeB exNodeB exNodeC ["u2"] "Person" none rfl).2.2.2.2.2.2
     1 rfl (by decide) rfl).1⟩

/-! ## C2 — registry redefinition -/

/-- C2 counterexample: `RelB`, unrelated to the bound class `RelA` but only an
indirect subclass of `StructuredRel`, is accepted silently — no
redefinition error is raised and the registry keeps its old binding —
refuting the claim that every unrelated class fails. -/
theorem C2_counterexample :
    issubclass (.sub "RelB" (.sub "Mid" structuredRelCls))
      (.sub "RelA" structuredRelCls) = false ∧
    issubclass (.sub "RelA" structuredRelCls)
      (.sub "RelB" (.sub "Mid" structuredRelCls)) = false ∧
    registerRelModel [("KNOWS", .sub "RelA" structuredRelCls)] "KNOWS"
        (.sub "RelB" (.sub "Mid" structuredRelCls)) =
      .ok [("KNOWS", .sub "RelA" structuredRelCls)] :=
  ⟨rfl, rfl, rfl⟩

/-- C2 as amended: against an existing binding, a subclass of the bound class
rebinds the registry entry to itself; an unrelated class raises the
redefinition error only when it is additionally a direct subclass of
`StructuredRel`; otherwise (not a subclass of the bound class and either not a
direct subclass of the base or an ancestor of the bound class) the
construction succeeds with the registry left unchanged. -/
theorem C2_amended_registry_redefinition (reg : Registry) (rt : String)
    (model existing : PyCls)
    (hbound : reg.lookup rt = some existing) :
    (issubclass model existing = true →
       registerRelModel reg rt model = .ok (assocSet reg rt model)) ∧
    (issubclass model existing = false →
       is_direct_subclass model structuredRelCls = true →
       issubclass existing model = false →
       registerRelModel reg rt model =
         .error (.relationshipClassRedefined rt model)) ∧
    (issubclass model existing = false →
       (is_direct_subclass model structuredRelCls = false ∨
        issubclass existing model = true) →
       registerRelModel reg rt model = .ok reg) := by
  refine ⟨?_, ?_, ?_⟩
  · intro h1
    simp [registerRelModel, hbound, h1]
  · intro h1 h2 h3
    simp [registerRelModel, hbound, h1, h2, h3]
  · intro h1 h2
    rcases h2 with h2 | h2 <;> simp [registerRelModel, hbound, h1, h2]

/-- Witness for the amended C2: a subclass of the bound class rebinds, and an
unrelated direct subclass of `StructuredRel` raises the redefinition error. -/
theorem C2_amended_registry_redefinition_witness :
    [("KNOWS", PyCls.sub "RelA" structuredRelCls)].lookup "KNOWS" =
      some (.sub "RelA" structuredRelCls) ∧
    registerRelModel [("KNOWS", .sub "RelA" structuredRelCls)] "KNOWS"
        (.sub "RelA2" (.sub "RelA" structuredRelCls)) =
      .ok [("KNOWS", .sub "RelA2" (.sub "RelA" structuredRelCls))] ∧
    registerRelModel [("KNOWS", .sub "RelA" structuredRelCls)] "KNOWS"
        (.sub "RelC" structuredRelCls) =
      .error (.relationshipClassRedefined "KNOWS"
        (.sub "RelC" structuredRelCls)) :=
  ⟨rfl,
   (C2_amended_registry_redefinition [("KNOWS", .sub "RelA" structuredRelCls)]
     "KNOWS" (.sub "RelA2" (.sub "RelA" structuredRelCls))
     (.sub "RelA" structuredRelCls) rfl).1 rfl,
   ((C2_amended_registry_redefinition [("KNOWS", .sub "RelA" structuredRelCls)]
     "KNOWS" (.sub "RelC" structuredRelCls)
     (.sub "RelA" structuredRelCls) rfl).2.1 rfl rfl rfl)⟩

/-! ## C9 — parameter construction in connect_helper -/

/-- C9: with a bound edge-property class, the instance is built from the
supplied properties with declared defaults for omitted fields, and the
parameter map has an entry for every deflated property — non-null values are
bound through a `$p` placeholder, null values appear as explicit nulls rather
than being omitted. -/
theorem C9_connect_param_map (rm : RelModel) (properties : Option Props) :
    (buildRelParams rm properties).2 =
      deflateRel rm (instantiateRel rm (properties.getD [])) ∧
    (buildRelParams rm properties).1.map Prod.fst =
      (buildRelParams rm properties).2.map Prod.fst ∧
    (∀ p v, (p, v) ∈ (buildRelParams rm properties).2 →
       (v ≠ none → (p, some ("$" ++ p)) ∈ (buildRelParams rm properties).1) ∧
       (v = none → (p, (none : Option String)) ∈ (buildRelParams rm properties).1)) ∧
    (∀ p d, (p, d) ∈ rm.declaredProps →
       ((properties.getD []).lookup p = none →
          (p, d) ∈ instantiateRel rm (properties.getD [])) ∧
       (∀ v, (properties.getD []).lookup p = some v →
          (p, v) ∈ instantiateRel rm (properties.getD []))) := by
  refine ⟨rfl, ?_, ?_, ?_⟩
  · simp [buildRelParams, List.map_map, Function.comp_def]
  · intro p v hpv
    constructor
    · intro hv
      rcases v with _ | w
      · exact absurd rfl hv
      · exact List.mem_map_of_mem _ hpv
    · intro hv
      subst hv
      exact List.mem_map_of_mem _ hpv
  · intro p d hpd
    constructor
    · intro hl
      have h := List.mem_map_of_mem
        (fun kd : String × Option Val =>
          match (properties.getD []).lookup kd.1 with
          | some v => (kd.1, v)
          | none => kd) hpd
      simpa [instantiateRel, hl] using h
    · intro v hl
      have h := List.mem_map_of_mem
        (fun kd : String × Option Val =>
          match (properties.getD []).lookup kd.1 with
          | some v => (kd.1, v)
          | none => kd) hpd
      simpa [instantiateRel, hl] using h

/-- Witness for C9: a declared property omitted from the supplied map keeps
its default, a supplied one overrides, and the null-valued field appears in
the placeholder map as an explicit null. -/
theorem C9_connect_param_map_witness :
    (("note", (none : Option Val)) ∈
      (buildRelParams ⟨[("since", some "1970"), ("note", none)]⟩
        (some [("since", some "2020")])).2) ∧
    (("note", (none : Option String)) ∈
      (buildRelParams ⟨[("since", some "1970"), ("note", none)]⟩
        (some [("since", some "2020")])).1) :=
  ⟨by decide,
   ((C9_connect_param_map ⟨[("since", some "1970"), ("note", none)]⟩
      (some [("since", some "2020")])).2.2.1 "note" none (by decide)).2 rfl⟩

/-! ## C10 — start/end class metadata on materialized instances -/

/-- Closed form of `_set_start_end_cls`: the two back-references are set from
the direction alone, regardless of their previous values. -/
theorem set_start_end_cls_spec (d : RelDef) (srcCls objCls : PyCls)
    (ri : RelInstance) :
    set_start_end_cls d srcCls ri objCls =
      ⟨ri.props,
       if d.direction = .incoming then some objCls else some srcCls,
       if d.direction = .incoming then some srcCls else some objCls⟩ := by
  cases hd : d.direction <;> simp [set_start_end_cls, hd]

/-- C10: every edge-property instance returned by `connect`, `relationship`
or `all_relationships` carries the target node's class as start and the
source's class as end when the direction is INCOMING, and the source's class
as start and the target's as end otherwise; both attributes are overwritten
on every materialization (they do not depend on the instance's previous
values). -/
theorem C10_materialization_start_end (m : Mgr) (s : Sess) (node : Node)
    (usId themId : Nat) (properties : Option Props)
    (hsrc : pre_action_check m.source = .ok usId)
    (hnode : check_node m.defn node = .ok themId)
    (herr : s.err = none) :
    (∀ (srcCls objCls : PyCls) (ri : RelInstance),
       (set_start_end_cls m.defn srcCls ri objCls).startCls =
         (if m.defn.direction = .incoming then some objCls else some srcCls) ∧
       (set_start_end_cls m.defn srcCls ri objCls).endCls =
         (if m.defn.direction = .incoming then some srcCls else some objCls)) ∧
    (∀ ri, (relationship m s node).out = .ok (some ri) →
       ri.startCls =
         (if m.defn.direction = .incoming then some node.cls else some m.source.cls) ∧
       ri.endCls =
         (if m.defn.direction = .incoming then some m.source.cls else some node.cls)) ∧
    (∀ ris, (all_relationships m s node).out = .ok ris →
       ∀ ri ∈ ris,
         ri.startCls =
           (if m.defn.direction = .incoming then some node.cls else some m.source.cls) ∧
         ri.endCls =
           (if m.defn.direction = .incoming then some m.source.cls else some node.cls)) ∧
    (∀ ri, (connect m s node properties).out = .ok (.inst ri) →
       ri.startCls =
         (if m.defn.direction = .incoming then some node.cls else some m.source.cls) ∧
       ri.endCls =
         (if m.defn.direction = .incoming then some m.source.cls else some node.cls)) := by
  refine ⟨?_, ?_, ?_, ?_⟩
  · intro srcCls objCls ri
    rw [set_start_end_cls_spec]
    exact ⟨rfl, rfl⟩
  · intro ri hri
    simp only [relationship, hsrc, hnode, herr] at hri
    split at hri
    · simp at hri
    · simp only [Except.ok.injEq, Option.some.injEq] at hri
      subst hri
      rw [set_start_end_cls_spec]
      exact ⟨rfl, rfl⟩
  · intro ris hris ri hri
    simp only [all_relationships, hsrc, hnode, herr] at hris
    split at hris
    · simp only [Except.ok.injEq] at hris
      subst hris
      simp at hri
    · simp only [Except.ok.injEq] at hris
      subst hris
      obtain ⟨r, hr, hrr⟩ := List.mem_map.mp hri
      subst hrr
      rw [set_start_end_cls_spec]
      exact ⟨rfl, rfl⟩
  · intro ri hri
    simp only [connect, hsrc, hnode, connect_helper] at hri
    split at hri
    · simp at hri
    · split at hri
      · simp only [herr] at hri
        simp at hri
      · simp only [herr] at hri
        split at hri
        · simp at hri
        · split at hri
          · simp at hri
          · simp only [Except.ok.injEq, ConnectRet.inst.injEq] at hri
            subst hri
            rw [set_start_end_cls_spec]
            exact ⟨rfl, rfl⟩

/-- Witness for C10: the back-references of an instance with stale values are
overwritten according to an outgoing direction. -/
theorem C10_materialization_start_end_witness :
    pre_action_check exSource = .ok 1 ∧
    check_node exDefn exNodeB = .ok 2 ∧
    exSess.err = none ∧
    (set_start_end_cls exDefn exPersonCls
      ⟨[], some noneTypeCls, some noneTypeCls⟩ exPersonCls).startCls =
      some exPersonCls :=
  ⟨rfl, rfl, rfl,
   (((C10_materialization_start_end exMgr exSess exNodeB 1 2 none
       rfl rfl rfl).1 exPersonCls exPersonCls
       ⟨[], some noneTypeCls, some noneTypeCls⟩).1).trans rfl⟩

/-! ## C8 — propagation policy -/

/-- A successful `_check_node` pins down the node's element id. -/
theorem check_node_ok_id (d : RelDef) (n : Node) (i : Nat)
    (h : check_node d n = .ok i) : n.id = some i := by
  unfold check_node at h
  split at h
  · exact absurd h (by simp)
  · split at h
    · exact absurd h (by simp)
    · simp_all

/-- A session with an injected failure, for the propagation witness. -/
def exSessErr : Sess := ⟨[exEdgeAB], [⟨2, "Person", "u2"⟩], some (.sessionFailure "boom")⟩

/-- C8: the only failures this layer swallows are the two deliberate
translations — `single()` turns the out-of-range condition into `none`, and
`relationship` / `all_relationships` turn an absent edge into `none` / the
empty sequence; every session failure injected into any other code path (and
any non-out-of-range failure under `single()`) surfaces to the caller
unmodified. -/
theorem C8_propagation_policy (m : Mgr) (s sErr : Sess) (e : PyErr)
    (node oldN newN : Node) (related : List Node) (uuids : List String)
    (label : String) (usId themId oldId newId : Nat)
    (hsrc : pre_action_check m.source = .ok usId)
    (hnode : check_node m.defn node = .ok themId)
    (hold : check_node m.defn oldN = .ok oldId)
    (hnew : check_node m.defn newN = .ok newId)
    (hne : oldId ≠ newId)
    (herr : s.err = none)
    (heErr : sErr.err = some e)
    (heIdx : e ≠ .indexError)
    (huuids : uuids ≠ []) :
    single s [] = .ok none ∧
    (∀ x xs, single s (x :: xs) = .ok (some x)) ∧
    (s.edges.filter (edgeMatches m.defn usId themId) = [] →
       relationship m s node = ⟨s.edges, [.read], .ok none⟩ ∧
       all_relationships m s node = ⟨s.edges, [.read], .ok []⟩) ∧
    single sErr related = .error e ∧
    (connect m sErr node none).out = .error e ∧
    (bulk_connect m sErr uuids label none).out = .error e ∧
    (bulk_disconnect m sErr uuids).out = .error e ∧
    (disconnect m sErr node).out = .error e ∧
    (disconnect_all m sErr).out = .error e ∧
    (replace m sErr node none).out = .error e ∧
    (reconnect m sErr oldN newN).out = .error e ∧
    (relationship m sErr node).out = .error e ∧
    (all_relationships m sErr node).out = .error e := by
  have hnid : node.id = some themId := check_node_ok_id m.defn node themId hnode
  have hsid : m.source.id = some usId := by
    unfold pre_action_check at hsrc
    split at hsrc
    · exact absurd hsrc (by simp)
    · split at hsrc
      · exact absurd hsrc (by simp)
      · simp_all
  refine ⟨?_, ?_, ?_, ?_, ?_, ?_, ?_, ?_, ?_, ?_, ?_, ?_, ?_⟩
  · simp [single, traversal_item, herr]
  · intro x xs
    simp [single, traversal_item, herr]
  · intro hempty
    constructor
    · simp [relationship, hsrc, hnode, herr, hempty]
    · simp [all_relationships, hsrc, hnode, herr, hempty]
  · cases e
    case indexError => exact absurd rfl heIdx
    all_goals simp [single, traversal_item, heErr]
  · rcases hm : m.defn.model with _ | rm <;>
      simp [connect, hsrc, hnode, connect_helper, heErr, truthy, hm]
  · rcases hm : m.defn.model with _ | rm <;>
      simp [bulk_connect, hsrc, huuids, connect_helper, heErr, truthy, hm, Except.map]
  · simp [bulk_disconnect, huuids, hsid, heErr]
  · simp [disconnect, hsrc, hnid, heErr]
  · simp [disconnect_all, hsrc, heErr]
  · simp [replace, hsrc, disconnect_all, heErr]
  · simp [reconnect, hsrc, hold, hnew, hne, heErr]
  · simp [relationship, hsrc, hnode, heErr]
  · simp [all_relationships, hsrc, hnode, heErr]

/-- Witness for C8: the empty traversal yields `none` under `single()`, and a
concrete injected session failure surfaces unmodified from `disconnect`. -/
theorem C8_propagation_policy_witness :
    exSessErr.err = some (.sessionFailure "boom") ∧
    single exSess ([] : List Node) = .ok none ∧
    (disconnect exMgr exSessErr exNodeB).out = .error (.sessionFailure "boom") :=
  ⟨rfl,
   (C8_propagation_policy exMgr exSess exSessErr (.sessionFailure "boom")
     exNodeB exNodeB exNodeC [] ["u2"] "Person" 1 2 2 3
     rfl rfl rfl rfl (by decide) rfl rfl (by decide) (by decide)).1,
   (C8_propagation_policy exMgr exSess exSessErr (.sessionFailure "boom")
     exNodeB exNodeB exNodeC [] ["u2"] "Person" 1 2 2 3
     rfl rfl rfl rfl (by decide) rfl rfl (by decide) (by decide)).2.2.2.2.2.2.2.1⟩

/-! ## C1 — reconnect transfers the edge and its properties

Supporting lemmas about the clause semantics of the single mutation query. -/

/-- Pattern matching ignores the stored properties. -/
theorem edgeMatches_props (d : RelDef) (a b : Nat) (e : Edge)
    (ps : List (String × Val)) :
    edgeMatches d a b { e with props := ps } = edgeMatches d a b e := rfl

/-- The edge a bare `MERGE` creates matches its own pattern. -/
theorem mergedEdge_matches (d : RelDef) (us new : Nat) :
    edgeMatches d us new (mergedEdge d us new) = true := by
  cases hd : d.direction <;> simp [edgeMatches, mergedEdge, hd]

/-- With distinct target identities, an edge matching the new pattern cannot
match the old pattern. -/
theorem matches_new_not_old (d : RelDef) (us oldId newId : Nat) (e : Edge)
    (hne : oldId ≠ newId) (h : edgeMatches d us newId e = true) :
    edgeMatches d us oldId e = false := by
  rw [Bool.eq_false_iff]
  intro hc
  cases hd : d.direction <;>
    simp only [edgeMatches, hd, Bool.and_eq_true, Bool.or_eq_true,
      beq_iff_eq] at h hc
  · obtain ⟨-, h2, h3⟩ := h
    obtain ⟨-, hc2, hc3⟩ := hc
    omega
  · obtain ⟨-, h2, h3⟩ := h
    obtain ⟨-, hc2, hc3⟩ := hc
    omega
  · obtain ⟨-, h2⟩ := h
    obtain ⟨-, hc2⟩ := hc
    omega

/-- An edge matching a pattern anchored at the source is incident to the
source. -/
theorem matches_incident (d : RelDef) (us x : Nat) (e : Edge)
    (h : edgeMatches d us x e = true) : incidentToSource d us e = true := by
  cases hd : d.direction <;>
    simp only [edgeMatches, incidentToSource, hd, Bool.and_eq_true,
      Bool.or_eq_true, beq_iff_eq] at h ⊢
  · exact ⟨h.1, h.2.1⟩
  · exact ⟨h.1, h.2.2⟩
  · exact ⟨h.1, h.2.elim (fun hh => Or.inl hh.1) (fun hh => Or.inr hh.2)⟩

/-- Dict assignment: the assigned key maps to the value. -/
theorem lookup_assocSet_self {α : Type} (m : List (String × α)) (k : String)
    (v : α) : (assocSet m k v).lookup k = some v := by
  induction m with
  | nil => simp [assocSet, List.lookup]
  | cons kv rest ih =>
      obtain ⟨k₀, v₀⟩ := kv
      by_cases hk : k₀ = k
      · simp [assocSet, hk, List.lookup]
      · have hb : (k == k₀) = false := by simp [Ne.symm hk]
        simp [assocSet, hk, List.lookup, hb, ih]

/-- Dict assignment: other keys are untouched. -/
theorem lookup_assocSet_ne {α : Type} (m : List (String × α)) (k k' : String)
    (v : α) (h : k' ≠ k) : (assocSet m k v).lookup k' = m.lookup k' := by
  induction m with
  | nil =>
      have hb : (k' == k) = false := by simp [h]
      simp [assocSet, List.lookup, hb]
  | cons kv rest ih =>
      obtain ⟨k₀, v₀⟩ := kv
      by_cases hk : k₀ = k
      · subst hk
        have hb : (k' == k₀) = false := by simp [h]
        simp [assocSet, List.lookup, hb]
      · simp [assocSet, hk, List.lookup, ih]

/-- Key removal: the removed key is gone. -/
theorem lookup_assocRemove_self {α : Type} (m : List (String × α))
    (k : String) : (assocRemove m k).lookup k = none := by
  induction m with
  | nil => simp [assocRemove, List.lookup]
  | cons kv rest ih =>
      obtain ⟨k₀, v₀⟩ := kv
      by_cases hk : k₀ = k
      · simp [assocRemove, hk, ih]
      · have hb : (k == k₀) = false := by simp [Ne.symm hk]
        simp [assocRemove, hk, List.lookup, hb, ih]

/-- Key removal: other keys are untouched. -/
theorem lookup_assocRemove_ne {α : Type} (m : List (String × α))
    (k k' : String) (h : k' ≠ k) :
    (assocRemove m k).lookup k' = m.lookup k' := by
  induction m with
  | nil => simp [assocRemove]
  | cons kv rest ih =>
      obtain ⟨k₀, v₀⟩ := kv
      by_cases hk : k₀ = k
      · subst hk
        have hb : (k' == k₀) = false := by simp [h]
        simp [assocRemove, List.lookup, hb, ih]
      · simp [assocRemove, hk, List.lookup, ih]

/-- `SET rel.p = v` makes `p` map to `v`. -/
theorem lookup_setPropVal_self (props : List (String × Val)) (p : String)
    (v : Option Val) : (setPropVal props p v).lookup p = v := by
  cases v with
  | some w => simpa [setPropVal] using lookup_assocSet_self props p w
  | none => simpa [setPropVal] using lookup_assocRemove_self props p

/-- `SET rel.q = v` leaves other keys untouched. -/
theorem lookup_setPropVal_ne (props : List (String × Val)) (p q : String)
    (v : Option Val) (h : p ≠ q) :
    (setPropVal props q v).lookup p = props.lookup p := by
  cases v with
  | some w => simpa [setPropVal] using lookup_assocSet_ne props q p w h
  | none => simpa [setPropVal] using lookup_assocRemove_ne props q p h

/-- A successful lookup means the key occurs in the key list. -/
theorem mem_keys_of_lookup {α : Type} (ps : List (String × α)) (p : String)
    (v : α) (h : ps.lookup p = some v) : p ∈ ps.map Prod.fst := by
  induction ps with
  | nil => simp [List.lookup] at h
  | cons kv rest ih =>
      obtain ⟨k, w⟩ := kv
      by_cases hk : p = k
      · simp [hk]
      · have hbeq : (p == k) = false := by simp [hk]
        simp only [List.lookup, hbeq] at h
        simp only [List.map_cons, List.mem_cons]
        exact Or.inr (ih h)

/-- After the `MERGE` clause some edge matches the new pattern. -/
theorem mergeStep_exists (d : RelDef) (us new : Nat) (edges : List Edge) :
    ∃ e ∈ mergeStep d us new edges, edgeMatches d us new e = true := by
  unfold mergeStep
  split
  · next h =>
      obtain ⟨e, he, hm⟩ := List.any_eq_true.mp h
      exact ⟨e, he, hm⟩
  · exact ⟨mergedEdge d us new, by simp, mergedEdge_matches d us new⟩

/-- A `SET` clause keeps some edge matching the new pattern. -/
theorem setStep_exists (d : RelDef) (us new : Nat) (ps : List (String × Val))
    (p : String) (edges : List Edge)
    (h : ∃ e ∈ edges, edgeMatches d us new e = true) :
    ∃ e ∈ setStep d us new ps p edges, edgeMatches d us new e = true := by
  obtain ⟨e, he, hm⟩ := h
  refine ⟨_, List.mem_map_of_mem
    (fun e => if edgeMatches d us new e then
        { e with props := setPropVal e.props p (ps.lookup p) }
      else e) he, ?_⟩
  rw [if_pos hm, edgeMatches_props]
  exact hm

/-- The `DELETE` of the old pattern keeps an edge matching the new one. -/
theorem deleteStep_exists (d : RelDef) (us oldId newId : Nat)
    (edges : List Edge) (hne : oldId ≠ newId)
    (h : ∃ e ∈ edges, edgeMatches d us newId e = true) :
    ∃ e ∈ deleteStep d us oldId edges, edgeMatches d us newId e = true := by
  obtain ⟨e, he, hm⟩ := h
  refine ⟨e, List.mem_filter.mpr ⟨he, ?_⟩, hm⟩
  simp [matches_new_not_old d us oldId newId e hne hm]

/-- After the `DELETE` clause no edge matches the old pattern. -/
theorem deleteStep_not_old (d : RelDef) (us oldId : Nat) (edges : List Edge) :
    ∀ e ∈ deleteStep d us oldId edges, edgeMatches d us oldId e = false := by
  intro e he
  have h := (List.mem_filter.mp he).2
  simpa using h

/-- The `DELETE` clause only removes edges. -/
theorem deleteStep_subset (d : RelDef) (us oldId : Nat) (edges : List Edge)
    (e : Edge) (h : e ∈ deleteStep d us oldId edges) : e ∈ edges :=
  (List.mem_filter.mp h).1

/-- Every clause preserves the existence of an edge matching the new
pattern (the delete needs the identities to differ). -/
theorem applyClause_preserves_new (d : RelDef) (us oldId newId : Nat)
    (ps : List (String × Val)) (hne : oldId ≠ newId) (edges : List Edge)
    (c : RClause) (h : ∃ e ∈ edges, edgeMatches d us newId e = true) :
    ∃ e ∈ applyClause d us oldId newId ps edges c,
      edgeMatches d us newId e = true := by
  cases c with
  | merge =>
      show ∃ e ∈ mergeStep d us newId edges, _
      unfold mergeStep
      split
      · exact h
      · obtain ⟨e, he, hm⟩ := h
        exact ⟨e, List.mem_append_left _ he, hm⟩
  | setCopy p => exact setStep_exists d us newId ps p edges h
  | delete => exact deleteStep_exists d us oldId newId edges hne h

/-- A predicate preserved along a list of steps holds at every `scanl`
state. -/
theorem scanl_all {α β : Type} (f : β → α → β) (P : β → Prop) (l : List α)
    (b : β) (hb : P b) (hstep : ∀ x a, P x → P (f x a)) :
    ∀ st ∈ List.scanl f b l, P st := by
  induction l generalizing b with
  | nil =>
      intro st hst
      rw [List.scanl_nil] at hst
      simp at hst
      subst hst
      exact hb
  | cons a t ih =>
      intro st hst
      rw [List.scanl_cons] at hst
      rcases List.mem_append.mp hst with h1 | h2
      · simp at h1
        subst h1
        exact hb
      · exact ih (f b a) (hstep b a hb) st h2

/-- The fold of the mutation query's clause list decomposes into merge, the
property-copy fold, then delete. -/
theorem reconnect_run_decompose (d : RelDef) (us oldId newId : Nat)
    (ps : List (String × Val)) (keys : List String) (edges : List Edge) :
    (reconnectClauses keys).foldl (applyClause d us oldId newId ps) edges =
      deleteStep d us oldId
        (keys.foldl (fun es q => setStep d us newId ps q es)
          (mergeStep d us newId edges)) := by
  simp [reconnectClauses, applyClause, List.foldl_append, List.foldl_map]

/-- The property-copy fold preserves agreement with the old edge on one
key across the remaining `SET` clauses. -/
theorem copyFold_preserve (d : RelDef) (us newId : Nat)
    (ps : List (String × Val)) (p : String) (keys : List String)
    (edges : List Edge)
    (h : ∀ e ∈ edges, edgeMatches d us newId e = true →
      e.props.lookup p = ps.lookup p) :
    ∀ e ∈ keys.foldl (fun es q => setStep d us newId ps q es) edges,
      edgeMatches d us newId e = true → e.props.lookup p = ps.lookup p := by
  induction keys generalizing edges with
  | nil => simpa using h
  | cons k rest ih =>
      simp only [List.foldl_cons]
      apply ih
      intro e' he' hm'
      obtain ⟨e, he, rfl⟩ := List.mem_map.mp he'
      by_cases hme : edgeMatches d us newId e = true
      · rw [if_pos hme]
        by_cases hpk : p = k
        · subst hpk
          rw [lookup_setPropVal_self]
        · rw [lookup_setPropVal_ne e.props p k (ps.lookup k) hpk]
          exact h e he hme
      · rw [if_neg hme] at hm' ⊢
        exact h e he hm'

/-- After the property-copy fold, every edge matching the new pattern agrees
with the old edge on every copied key. -/
theorem copyFold_lookup (d : RelDef) (us newId : Nat)
    (ps : List (String × Val)) (keys : List String) (edges : List Edge)
    (p : String) (hp : p ∈ keys) :
    ∀ e ∈ keys.foldl (fun es q => setStep d us newId ps q es) edges,
      edgeMatches d us newId e = true → e.props.lookup p = ps.lookup p := by
  induction keys generalizing edges with
  | nil => cases hp
  | cons k rest ih =>
      simp only [List.foldl_cons]
      rcases List.mem_cons.mp hp with rfl | hp'
      · apply copyFold_preserve
        intro e' he' hm'
        obtain ⟨e, he, rfl⟩ := List.mem_map.mp he'
        by_cases hme : edgeMatches d us newId e = true
        · rw [if_pos hme]
          rw [lookup_setPropVal_self]
        · rw [if_neg hme] at hm'
          exact absurd hm' hme
      · exact ih _ hp'

/-- The property-copy fold keeps some edge matching the new pattern. -/
theorem copyFold_exists (d : RelDef) (us newId : Nat)
    (ps : List (String × Val)) (keys : List String) (edges : List Edge)
    (h : ∃ e ∈ edges, edgeMatches d us newId e = true) :
    ∃ e ∈ keys.foldl (fun es q => setStep d us newId ps q es) edges,
      edgeMatches d us newId e = true := by
  induction keys generalizing edges with
  | nil => simpa using h
  | cons k rest ih =>
      simp only [List.foldl_cons]
      exact ih _ (setStep_exists d us newId ps k edges h)

/-- Every intermediate state of the mutation query keeps at least one edge of
this relation type incident to the source: the old edge up to the `MERGE`,
an edge matching the new pattern from the `MERGE` on (the `SET`s keep it and
the final `DELETE` cannot remove it since the identities differ). -/
theorem reconnect_states_nonempty (d : RelDef) (us oldId newId : Nat)
    (ps : List (String × Val)) (keys : List String) (edges : List Edge)
    (hne : oldId ≠ newId)
    (h : ∃ e ∈ edges, edgeMatches d us oldId e = true) :
    ∀ st ∈ List.scanl (applyClause d us oldId newId ps) edges
        (reconnectClauses keys),
      ∃ e ∈ st, incidentToSource d us e = true := by
  intro st hst
  rw [reconnectClauses, List.scanl_cons] at hst
  rcases List.mem_append.mp hst with h1 | h2
  · simp at h1
    subst h1
    obtain ⟨e, he, hm⟩ := h
    exact ⟨e, he, matches_incident d us oldId e hm⟩
  · have hQ : ∃ e ∈ applyClause d us oldId newId ps edges .merge,
        edgeMatches d us newId e = true := by
      show ∃ e ∈ mergeStep d us newId edges, _
      exact mergeStep_exists d us newId edges
    obtain ⟨e, he, hm⟩ := scanl_all (applyClause d us oldId newId ps)
      (fun es => ∃ e ∈ es, edgeMatches d us newId e = true) _ _ hQ
      (fun x a hx => applyClause_preserves_new d us oldId newId ps hne x a hx)
      st h2
    exact ⟨e, he, matches_incident d us newId e hm⟩

/-- C1: for every `reconnect(oldNode, newNode)` where an edge to `oldNode`
exists and the identities differ, the operation issues exactly one mutation
query (after its one read); that query merges the new edge, copies every
property key found on the old edge onto it by name, and deletes the old edge,
with the merge first and the delete last; afterwards no edge to `oldNode`
remains, an edge to `newNode` exists and carries every property the old edge
had, and no intermediate state of the mutation query leaves the source with
zero edges of this relation type. -/
theorem C1_reconnect_transfers_edge (m : Mgr) (s : Sess) (oldN newN : Node)
    (usId oldId newId : Nat) (oldE : Edge) (tl : List Edge)
    (hsrc : pre_action_check m.source = .ok usId)
    (hold : check_node m.defn oldN = .ok oldId)
    (hnew : check_node m.defn newN = .ok newId)
    (hne : oldId ≠ newId)
    (herr : s.err = none)
    (hfind : s.edges.filter (edgeMatches m.defn usId oldId) = oldE :: tl) :
    (reconnect m s oldN newN).queries = [.read, .write] ∧
    (reconnect m s oldN newN).out =
      .ok (some (reconnectClauses (oldE.props.map Prod.fst))) ∧
    (reconnect m s oldN newN).edges =
      (reconnectClauses (oldE.props.map Prod.fst)).foldl
        (applyClause m.defn usId oldId newId oldE.props) s.edges ∧
    (reconnectClauses (oldE.props.map Prod.fst)).head? = some .merge ∧
    (reconnectClauses (oldE.props.map Prod.fst)).getLast? = some .delete ∧
    (∀ e ∈ (reconnect m s oldN newN).edges,
       edgeMatches m.defn usId oldId e = false) ∧
    (∃ e ∈ (reconnect m s oldN newN).edges,
       edgeMatches m.defn usId newId e = true) ∧
    (∀ e ∈ (reconnect m s oldN newN).edges,
       edgeMatches m.defn usId newId e = true →
       ∀ p v, oldE.props.lookup p = some v → e.props.lookup p = some v) ∧
    (∀ st ∈ List.scanl (applyClause m.defn usId oldId newId oldE.props)
        s.edges (reconnectClauses (oldE.props.map Prod.fst)),
       ∃ e ∈ st, incidentToSource m.defn usId e = true) := by
  have hR : reconnect m s oldN newN =
      ⟨(reconnectClauses (oldE.props.map Prod.fst)).foldl
         (applyClause m.defn usId oldId newId oldE.props) s.edges,
       [.read, .write],
       .ok (some (reconnectClauses (oldE.props.map Prod.fst)))⟩ := by
    simp [reconnect, hsrc, hold, hnew, hne, herr, hfind]
  have holdmem : ∃ e ∈ s.edges, edgeMatches m.defn usId oldId e = true := by
    have h1 : oldE ∈ s.edges.filter (edgeMatches m.defn usId oldId) := by
      rw [hfind]
      exact List.mem_cons_self _ _
    have h2 := List.mem_filter.mp h1
    exact ⟨oldE, h2.1, h2.2⟩
  refine ⟨by rw [hR], by rw [hR], by rw [hR], rfl, ?_, ?_, ?_, ?_, ?_⟩
  · show (RClause.merge ::
        ((oldE.props.map Prod.fst).map RClause.setCopy ++ [RClause.delete])).getLast? =
      some RClause.delete
    rw [← List.cons_append, List.getLast?_concat]
  · intro e he
    rw [hR] at he
    rw [reconnect_run_decompose] at he
    exact deleteStep_not_old m.defn usId oldId _ e he
  · rw [hR]
    show ∃ e ∈ (reconnectClauses (oldE.props.map Prod.fst)).foldl
        (applyClause m.defn usId oldId newId oldE.props) s.edges,
      edgeMatches m.defn usId newId e = true
    rw [reconnect_run_decompose]
    exact deleteStep_exists m.defn usId oldId newId _ hne
      (copyFold_exists m.defn usId newId oldE.props _ _
        (mergeStep_exists m.defn usId newId s.edges))
  · intro e he hm p v hv
    rw [hR] at he
    rw [reconnect_run_decompose] at he
    have he2 := deleteStep_subset m.defn usId oldId _ e he
    have hp : p ∈ oldE.props.map Prod.fst := mem_keys_of_lookup oldE.props p v hv
    have hcopy := copyFold_lookup m.defn usId newId oldE.props
      (oldE.props.map Prod.fst) (mergeStep m.defn usId newId s.edges) p hp e he2 hm
    rw [hcopy]
    exact hv
  · exact reconnect_states_nonempty m.defn usId oldId newId oldE.props _
      s.edges hne holdmem

/-- Witness for C1 at a concrete reconnect of `exNodeB` to `exNodeC`. -/
theorem C1_reconnect_transfers_edge_witness :
    exSess.edges.filter (edgeMatches exMgr.defn 1 2) = [exEdgeAB] ∧
    (2 : Nat) ≠ 3 ∧
    (reconnect exMgr exSess exNodeB exNodeC).queries = [.read, .write] :=
  ⟨rfl, by decide,
   (C1_reconnect_transfers_edge exMgr exSess exNodeB exNodeC 1 2 3 exEdgeAB []
     rfl rfl rfl (by decide) rfl rfl).1⟩

end Neomodel
